import Mathlib

/-!
Verification of the authentication and per-user authorization core of a
multi-tenant todo-list REST API (Node/Express + MySQL), via a shallow
embedding in Lean.

The embedding models:
* the response helpers (`successResponse` / `errorResponse`),
* the JWT issue/verify pair (symbolically: a signed token is an injective
  string encoding of the claims, the expiry and the signing secret, over a
  space-free and dollar-free alphabet, and verification recomputes and
  compares the embedded secret),
* bcrypt hash/compare (symbolically: the digest is an injective encoding
  of the password and the salt under the `$2b$10$` marker),
* the `users`, `lists` and `todos` tables as lists of rows with an
  auto-increment counter,
* the model operations (`User.findByEmail`, `User.create`,
  `ListModel.*`, `TodoModel.*`), the auth controller (`register`,
  `login`), the JWT middleware (`authMiddleware`) including the exact
  JavaScript `header.replace('Bearer ', '')` semantics (remove the first
  occurrence of the literal pattern, anywhere in the string), and the
  todo controllers.

Environment variables are modelled as `Option` values; where JavaScript
coerces `undefined` into the string `"undefined"` the model does the same.
Time is a natural number of milliseconds passed in explicitly
(`Date.now()`), and the bcrypt salt is an explicit nonce parameter
(the fresh randomness of the hashing library).
-/

set_option linter.unusedVariables false

namespace TodoApi

/-! ### Characters and injective string encodings -/

/-- The space character (code 32), named to keep character reasoning readable. -/
def spaceChar : Char := Char.ofNat 32

/-- The dollar character (code 36), the marker character of bcrypt digests. -/
def dollarChar : Char := Char.ofNat 36

/-- The dot character (code 46), the field separator of encoded tokens. -/
def dotChar : Char := Char.ofNat 46

/-- The dash character (code 45), the separator inside encoded strings. -/
def dashChar : Char := Char.ofNat 45

/-- Decimal digit character for `n < 10`. -/
def digChar (n : Nat) : Char := Char.ofNat (48 + n)

/-- Decimal digit accumulator, structurally recursive on a fuel bound so
that it reduces inside the kernel. -/
def natDigsCore : Nat → Nat → List Char → List Char
  | 0, _, acc => acc
  | fuel+1, n, acc =>
    if n < 10 then digChar (n % 10) :: acc
    else natDigsCore fuel (n / 10) (digChar (n % 10) :: acc)

/-- Decimal rendering of a natural number (the model of JavaScript number
to string coercion for env values and of the numeric fields inside the
token encoding). -/
def natRepr (n : Nat) : String := String.mk (natDigsCore (n+1) n [])

/-- Injective encoding of a character list into digits separated by
dashes (one decimal code point per character). -/
def strEncAux : List Char → List Char
  | [] => []
  | c :: cs =>
    match cs with
    | [] => (natRepr c.toNat).data
    | _ :: _ => (natRepr c.toNat).data ++ dashChar :: strEncAux cs

/-- Injective encoding of a string over the digits-and-dash alphabet. -/
def strEnc (s : String) : String := String.mk (strEncAux s.data)

/-- Split a character list at every occurrence of a separator character
(the model of JavaScript `split`): `splitSep sep l` always returns at
least one (possibly empty) piece. -/
def splitSep (sep : Char) : List Char → List (List Char)
  | [] => [[]]
  | c :: cs =>
    if c = sep then [] :: splitSep sep cs
    else
      match splitSep sep cs with
      | [] => [[c]]
      | r :: rs => (c :: r) :: rs

/-- Parse a nonempty all-digit character list as a decimal natural. -/
def parseNatAux : List Char → Nat → Option Nat
  | [], acc => some acc
  | c :: cs, acc =>
    if 48 ≤ c.toNat ∧ c.toNat ≤ 57 then parseNatAux cs (acc * 10 + (c.toNat - 48))
    else none

/-- Parse a character list as a decimal natural; fails on the empty list
and on any non-digit character. -/
def parseNat? (l : List Char) : Option Nat :=
  match l with
  | [] => none
  | _ => parseNatAux l 0

/-- Partial inverse of `strEnc`. -/
def strDec (l : List Char) : Option String :=
  match l with
  | [] => some ""
  | _ =>
    match (splitSep dashChar l).mapM parseNat? with
    | none => none
    | some codes => some (String.mk (codes.map Char.ofNat))

/-! ### The JavaScript `String.replace` with a string pattern
(replace the FIRST occurrence only; if the pattern does not occur the
string is returned unchanged) -/

/-- `listStartsWith pat l` holds when `pat` is an initial segment of `l`. -/
def listStartsWith : List Char → List Char → Bool
  | [], _ => true
  | _ :: _, [] => false
  | p :: ps, c :: cs => p == c && listStartsWith ps cs

/-- Remove the first occurrence of `pat` from a character list; identical
to the list if `pat` does not occur. -/
def replaceFirstL (pat : List Char) : List Char → List Char
  | [] => []
  | c :: cs =>
    if listStartsWith pat (c :: cs) then (c :: cs).drop pat.length
    else c :: replaceFirstL pat cs

/-- Model of JavaScript `s.replace(pat, '')` for a plain-string pattern:
only the first occurrence is removed. -/
def jsReplaceOnce (pat s : String) : String := String.mk (replaceFirstL pat.data s.data)

/-! ### Table rows (persisted schema `users`, `lists`, `todos`) -/

/-- A row of the `users` table: `users(id, name, email, password, created_at)`.
The `password` column stores the bcrypt digest. -/
structure UserRow where
  id : Nat
  name : String
  email : String
  password : String
  createdAt : Nat
deriving DecidableEq, Repr

/-- The `users` table with its auto-increment counter. -/
structure UsersTable where
  rows : List UserRow
  nextId : Nat
deriving DecidableEq, Repr

/-- A row of the `lists` table: `lists(id, name, user_id, created_at, updated_at)`. -/
structure ListRow where
  id : Nat
  name : String
  userId : Nat
  createdAt : Nat
  updatedAt : Option Nat
deriving DecidableEq, Repr

/-- The `lists` table with its auto-increment counter. -/
structure ListsTable where
  rows : List ListRow
  nextId : Nat
deriving DecidableEq, Repr

/-- A row of the `todos` table: `todos(id, name, list_id, completed, created_at, updated_at)`. -/
structure TodoRow where
  id : Nat
  name : String
  listId : Nat
  completed : Bool
  createdAt : Nat
  updatedAt : Option Nat
deriving DecidableEq, Repr

/-- The `todos` table with its auto-increment counter. -/
structure TodosTable where
  rows : List TodoRow
  nextId : Nat
deriving DecidableEq, Repr

/-! ### Response envelope (`utils/responseHelper.js`) -/

/-- Errors raised by the modelled `jwt.verify`. -/
inductive JwtError where
  /-- `jsonwebtoken` throws when the secret argument is `undefined`. -/
  | noSecret
  /-- the token string does not decode to a signed token -/
  | malformed
  /-- the embedded signature does not match the verification secret -/
  | badSignature
  /-- the expiry time has elapsed -/
  | expired
deriving DecidableEq, Repr

/-- The `error` field of an error envelope: the default empty object `{}`
or the error object caught from `jwt.verify`. -/
inductive ErrDetail where
  | emptyObj
  | jwtErr (e : JwtError)
deriving DecidableEq, Repr

/-- The `data` field of a success envelope, one constructor per payload
shape the modelled handlers produce. -/
inductive Payload where
  /-- `null` -/
  | nullData
  /-- `{token, expiresAt}` (the auth endpoints); `expiresAt` is the millisecond
  timestamp, `none` modelling the invalid date produced when `JWT_TTL` is unset -/
  | auth (token : String) (expiresAt : Option Nat)
  /-- a single todo row -/
  | todoRow (t : TodoRow)
  /-- a sequence of todo rows -/
  | todoRows (ts : List TodoRow)
  /-- `{id, name, listId, completed}` echoed by createTodo/updateTodo -/
  | todoEcho (id : Nat) (name : String) (listId : Nat) (completed : Bool)
deriving DecidableEq, Repr

/-- Body of an HTTP JSON response: `{success: true, data, message}` or
`{success: false, message, error}`. -/
inductive Body where
  | ok (data : Payload) (message : String)
  | fail (message : String) (error : ErrDetail)
deriving DecidableEq, Repr

/-- An HTTP response: status code plus JSON body. -/
structure Response where
  status : Nat
  body : Body
deriving DecidableEq, Repr

/-- `successResponse(res, data, message)`: status 200, `success: true`. -/
def successResponse (data : Payload) (message : String := "Request completed successfully") : Response :=
  ⟨200, .ok data message⟩

/-- `errorResponse(res, message, status, error)`: `success: false`. -/
def errorResponse (message : String := "An error occurred") (status : Nat := 500)
    (error : ErrDetail := .emptyObj) : Response :=
  ⟨status, .fail message error⟩

/-! ### Process environment -/

/-- The environment variables the auth core reads. `JWT_TTL` is modelled as
the configured number of seconds (`none` when unset). -/
structure Env where
  jwtSecret : Option String
  jwtTtl : Option Nat
deriving DecidableEq, Repr

/-- JavaScript string coercion of a possibly-undefined numeric env value:
`undefined` renders as `"undefined"` under string concatenation. -/
def envNatStr : Option Nat → String
  | none => "undefined"
  | some n => natRepr n

/-- The hardcoded development fallback secret in `authController.js`. -/
def fallbackSecret : String := "dsfsdfdsfsfdsf4332432432432432432"

/-! ### JWT issue/verify (`jsonwebtoken`, modelled symbolically) -/

/-- The token payload `{id, email}`. -/
structure Claims where
  id : Nat
  email : String
deriving DecidableEq, Repr

/-- Encoding of the optional expiry field (`"n"` when the token carries
no expiry claim). -/
def expEnc : Option Nat → String
  | none => "n"
  | some k => natRepr k

/-- Partial inverse of `expEnc`. -/
def expDec (l : List Char) : Option (Option Nat) :=
  if l = "n".data then some none else (parseNat? l).map some

/-- `jwt.sign({id, email}, secret, {expiresIn: ttl})`: a compact signed
string. The symbolic model is an injective, dot-separated encoding of the
id, the email, the expiry and the signing secret, over an alphabet of
digits, dashes, dots and `n` (in particular space-free and dollar-free,
as real compact JWTs are). -/
def jwtSign (c : Claims) (secret : String) (exp : Option Nat) : String :=
  String.mk ((natRepr c.id).data ++ dotChar ::
    (strEnc c.email).data ++ dotChar ::
    (expEnc exp).data ++ dotChar ::
    (strEnc secret).data)

/-- `jwt.verify(token, secret)` at time `now` (milliseconds): throws when
the secret is `undefined`, fails on malformed tokens, on a signature
produced with a different secret, and on elapsed expiry; otherwise
returns the claims. -/
def jwtVerify (token : String) (secret : Option String) (now : Nat) : Except JwtError Claims :=
  match secret with
  | none => .error .noSecret
  | some s =>
    match splitSep dotChar token.data with
    | [a, b, c, d] =>
      match parseNat? a, strDec b, expDec c, strDec d with
      | some i, some em, some ex, some sec =>
        if sec ≠ s then .error .badSignature
        else
          match ex with
          | some e => if e ≤ now then .error .expired else .ok ⟨i, em⟩
          | none => .ok ⟨i, em⟩
      | _, _, _, _ => .error .malformed
    | _ => .error .malformed

/-! ### Password hasher (`bcryptjs`, modelled symbolically) -/

/-- `bcrypt.hash(password, 10)` with explicit salt nonce: the digest embeds
the version/cost marker `$2b$10$`, the salt and an injective encoding of
the password. -/
def bcryptHash (password : String) (salt : Nat) : String :=
  String.mk (("$2b$10$").data ++ (natRepr salt).data ++ dollarChar :: (strEnc password).data)

/-- `bcrypt.compare(password, digest)`: recomputes using the embedded salt
and compares; returns `false` (never throws) on a malformed digest. -/
def bcryptCompare (password digest : String) : Bool :=
  match splitSep dollarChar digest.data with
  | [p0, p1, p2, _salt, encPw] =>
    p0 == [] && p1 == "2b".data && p2 == "10".data && encPw == (strEnc password).data
  | _ => false

/-! ### Credential store (`models/User.js`) -/

namespace User

/-- `User.findByEmail(email)`: `SELECT * FROM users WHERE email = ?`,
returning the first matching row (`rows[0]`) or `undefined`. -/
def findByEmail (db : UsersTable) (email : String) : Option UserRow :=
  db.rows.find? (fun r => r.email == email)

/-- `User.create(name, email, password)`: hashes the password with bcrypt
(cost 10, fresh salt) and inserts the row, returning the generated id.
Only the digest is persisted, never the plaintext. -/
def create (name email password : String) (salt now : Nat) (db : UsersTable) : Nat × UsersTable :=
  let hashedPassword := bcryptHash password salt
  (db.nextId, ⟨db.rows ++ [⟨db.nextId, name, email, hashedPassword, now⟩], db.nextId + 1⟩)

end User

/-! ### Authentication service (`controllers/authController.js`) -/

/-- Outcome of a `register` call, instrumented with how many bcrypt hash
computations and row insertions the call performed. -/
structure RegisterOut where
  resp : Response
  db : UsersTable
  hashCalls : Nat
  inserts : Nat
deriving DecidableEq, Repr

/-- `register(req, res)`: look up the email; if taken answer
`409 "Email is already registered"` (no hashing, no insertion); otherwise
create the user, sign a token with `JWT_SECRET` (or the hardcoded
fallback) and the configured TTL, and answer
`{token, expiresAt = now + ttl seconds}`. -/
def register (env : Env) (now salt : Nat) (name email password : String)
    (db : UsersTable) : RegisterOut :=
  match User.findByEmail db email with
  | some _ => ⟨errorResponse "Email is already registered" 409, db, 0, 0⟩
  | none =>
    let (userId, db') := User.create name email password salt now db
    let secret := env.jwtSecret.getD fallbackSecret
    let exp := env.jwtTtl.map (fun ttl => now + ttl * 1000)
    let token := jwtSign ⟨userId, email⟩ secret exp
    let expiryDate := env.jwtTtl.map (fun ttl => now + ttl * 1000)
    ⟨successResponse (.auth token expiryDate), db', 1, 1⟩

/-- `login(req, res)`: look up the email and verify the password; both
failure factors answer the identical `401 "Invalid email or password"`;
on success sign a token exactly as `register` does. -/
def login (env : Env) (now : Nat) (email password : String) (db : UsersTable) : Response :=
  match User.findByEmail db email with
  | none => errorResponse "Invalid email or password" 401
  | some user =>
    if bcryptCompare password user.password then
      let secret := env.jwtSecret.getD fallbackSecret
      let exp := env.jwtTtl.map (fun ttl => now + ttl * 1000)
      let token := jwtSign ⟨user.id, user.email⟩ secret exp
      successResponse (.auth token (env.jwtTtl.map (fun ttl => now + ttl * 1000)))
    else
      errorResponse "Invalid email or password" 401

/-! ### Authorization gate (`middleware/authMiddleware.js`) -/

/-- Result of the middleware: either a rejection response sent immediately,
or permission to continue with the decoded claims attached to `req.user`. -/
inductive GateResult where
  | reject (r : Response)
  | allow (user : Claims)
deriving DecidableEq, Repr

/-- `authMiddleware(req, res, next)`:
`const token = req.header('Authorization')?.replace('Bearer ', '')`;
a missing header or an empty extracted token answers `401 "Unauthorized"`;
otherwise `jwt.verify(token, process.env.JWT_SECRET)` either attaches the
claims and calls `next()`, or any verification error answers
`401 'Invalid token, TTL:' + process.env.JWT_TTL` with the caught error. -/
def authMiddleware (env : Env) (header : Option String) (now : Nat) : GateResult :=
  match header.map (fun h => jsReplaceOnce "Bearer " h) with
  | none => .reject (errorResponse "Unauthorized" 401)
  | some t =>
    if t = "" then .reject (errorResponse "Unauthorized" 401)
    else
      match jwtVerify t env.jwtSecret now with
      | .ok claims => .allow claims
      | .error e =>
        .reject (errorResponse ("Invalid token, TTL:" ++ envNatStr env.jwtTtl) 401 (.jwtErr e))

/-! ### List repository (`models/List.js`; the source object is named `List`) -/

namespace ListModel

/-- `List.create(name, userId)`: `INSERT INTO lists (name, user_id, created_at)`;
the owner column is always the caller's id. -/
def create (name : String) (userId now : Nat) (t : ListsTable) : Nat × ListsTable :=
  (t.nextId, ⟨t.rows ++ [⟨t.nextId, name, userId, now, none⟩], t.nextId + 1⟩)

/-- `List.remove(id, userId)`: `DELETE FROM lists WHERE id=? AND user_id=?`;
returns `affectedRows`. -/
def remove (id userId : Nat) (t : ListsTable) : Nat × ListsTable :=
  let kept := t.rows.filter (fun r => !(r.id == id && r.userId == userId))
  (t.rows.length - kept.length, ⟨kept, t.nextId⟩)

/-- `List.update({name, id, userId})`:
`UPDATE lists SET name=?, updated_at=NOW() WHERE id=? AND user_id=?`;
returns `affectedRows` (matched rows whose stored values actually change). -/
def update (name : String) (id userId now : Nat) (t : ListsTable) : Nat × ListsTable :=
  let changed := fun (r : ListRow) =>
    r.id == id && r.userId == userId && !(r.name == name && r.updatedAt == some now)
  let affected := (t.rows.filter changed).length
  (affected, ⟨t.rows.map (fun r =>
      if r.id == id && r.userId == userId then { r with name := name, updatedAt := some now }
      else r), t.nextId⟩)

/-- `List.findAllByUserId(userId)`: `SELECT * FROM lists WHERE user_id = ?`. -/
def findAllByUserId (userId : Nat) (t : ListsTable) : List ListRow :=
  t.rows.filter (fun r => r.userId == userId)

/-- `List.getListById(id, userId)`:
`SELECT * FROM lists WHERE id=? AND user_id = ?` (an array of at most one row). -/
def getListById (id userId : Nat) (t : ListsTable) : List ListRow :=
  t.rows.filter (fun r => r.id == id && r.userId == userId)

end ListModel

/-! ### Todo repository (`models/Todo.js`; the source object is named `Todo`) -/

namespace TodoModel

/-- `Todo.create({name, listId, completed})`:
`INSERT INTO todos (name, list_id, completed, created_at)`; the list id is
whatever the caller supplied, no owner column exists. -/
def create (name : String) (listId : Nat) (completed : Bool) (now : Nat)
    (t : TodosTable) : Nat × TodosTable :=
  (t.nextId, ⟨t.rows ++ [⟨t.nextId, name, listId, completed, now, none⟩], t.nextId + 1⟩)

/-- `Todo.remove(id)`: `DELETE FROM todos WHERE id = ?` — filters by the
todo id only, no user column is consulted. -/
def remove (id : Nat) (t : TodosTable) : Nat × TodosTable :=
  let kept := t.rows.filter (fun r => !(r.id == id))
  (t.rows.length - kept.length, ⟨kept, t.nextId⟩)

/-- `Todo.update({name, completed, id, listId})`:
`UPDATE todos SET name=?, completed=?, list_id=?, updated_at=NOW() WHERE id=?`
— filters by the todo id only. -/
def update (name : String) (completed : Bool) (id listId now : Nat)
    (t : TodosTable) : Nat × TodosTable :=
  let changed := fun (r : TodoRow) =>
    r.id == id && !(r.name == name && r.completed == completed &&
      r.listId == listId && r.updatedAt == some now)
  let affected := (t.rows.filter changed).length
  (affected, ⟨t.rows.map (fun r =>
      if r.id == id then
        { r with name := name, completed := completed, listId := listId, updatedAt := some now }
      else r), t.nextId⟩)

/-- `Todo.findAllByListId(listId)`: `SELECT * FROM todos WHERE list_id = ?`. -/
def findAllByListId (listId : Nat) (t : TodosTable) : List TodoRow :=
  t.rows.filter (fun r => r.listId == listId)

/-- `Todo.getTodoById(id)`: `SELECT * FROM todos WHERE id = ?`. -/
def getTodoById (id : Nat) (t : TodosTable) : List TodoRow :=
  t.rows.filter (fun r => r.id == id)

end TodoModel

/-! ### Application state and the todo controllers
(`controllers/todoController.js`; `user` is the decoded `req.user`) -/

/-- The whole relational store. -/
structure AppDB where
  users : UsersTable
  lists : ListsTable
  todos : TodosTable
deriving DecidableEq, Repr

namespace TodoController

/-- `getTodos`: todos of the caller-supplied `listId` from the body. -/
def getTodos (user : Claims) (listId : Nat) (db : AppDB) : Response × AppDB :=
  (successResponse (.todoRows (TodoModel.findAllByListId listId db.todos))
    "Todos fetched successfully", db)

/-- `getTodoById`: 404 when absent, otherwise the row, looked up by id only. -/
def getTodoById (user : Claims) (id : Nat) (db : AppDB) : Response × AppDB :=
  match TodoModel.getTodoById id db.todos with
  | [] => (errorResponse "Todo not found" 404, db)
  | t :: _ => (successResponse (.todoRow t) "Todo fetched successfully", db)

/-- `createTodo`: inserts under the caller-supplied list id. -/
def createTodo (user : Claims) (name : String) (listId : Nat) (completed : Bool)
    (now : Nat) (db : AppDB) : Response × AppDB :=
  let (todoId, todos') := TodoModel.create name listId completed now db.todos
  (successResponse (.todoEcho todoId name listId completed) "Todo created successfully",
    { db with todos := todos' })

/-- `updateTodo`: updates by todo id only; 404 when nothing changed. -/
def updateTodo (user : Claims) (name : String) (completed : Bool) (listId id now : Nat)
    (db : AppDB) : Response × AppDB :=
  let (affectedRows, todos') := TodoModel.update name completed id listId now db.todos
  if affectedRows ≠ 0 then
    (successResponse (.todoEcho id name listId completed) "Todo updated successfully",
      { db with todos := todos' })
  else
    (errorResponse "Todo not found or update failed" 404, { db with todos := todos' })

/-- `deleteTodo`: deletes by todo id only; 404 when nothing was deleted. -/
def deleteTodo (user : Claims) (id : Nat) (db : AppDB) : Response × AppDB :=
  let (affectedRows, todos') := TodoModel.remove id db.todos
  if affectedRows ≠ 0 then
    (successResponse .nullData "Todo deleted successfully", { db with todos := todos' })
  else
    (errorResponse "Todo not found or deletion failed" 404, { db with todos := todos' })

end TodoController

/-! ### Protected route pipeline (`app.js`:
`app.use('/api/lists', authMiddleware, listRoutes)` and
`app.use('/api/todos', authMiddleware, todoRoutes)`) -/

/-- A protected request: the gate runs first; only when it allows does the
downstream handler (controller plus repository) run. The boolean records
whether the downstream handler executed. -/
def runProtected (env : Env) (header : Option String) (now : Nat)
    (handler : Claims → AppDB → Response × AppDB) (db : AppDB) :
    Response × AppDB × Bool :=
  match authMiddleware env header now with
  | .reject r => (r, db, false)
  | .allow u => let (r, db') := handler u db; (r, db', true)

/-! ## Supporting lemmas -/

theorem digChar_ok : ∀ k, k < 10 → digChar k ≠ spaceChar ∧ digChar k ≠ dollarChar := by
  decide

theorem natDigsCore_chars (fuel : Nat) :
    ∀ n acc, (∀ c ∈ acc, c ≠ spaceChar ∧ c ≠ dollarChar) →
      ∀ c ∈ natDigsCore fuel n acc, c ≠ spaceChar ∧ c ≠ dollarChar := by
  induction fuel with
  | zero => intro n acc hacc; simpa [natDigsCore] using hacc
  | succ fuel ih =>
    intro n acc hacc c hc
    rw [natDigsCore] at hc
    by_cases h : n < 10
    · rw [if_pos h] at hc
      rcases List.mem_cons.mp hc with rfl | hc'
      · exact digChar_ok _ (Nat.mod_lt _ (by norm_num))
      · exact hacc c hc'
    · rw [if_neg h] at hc
      refine ih (n / 10) _ ?_ c hc
      intro d hd
      rcases List.mem_cons.mp hd with rfl | hd'
      · exact digChar_ok _ (Nat.mod_lt _ (by norm_num))
      · exact hacc d hd'

theorem natRepr_chars (n : Nat) : ∀ c ∈ (natRepr n).data, c ≠ spaceChar ∧ c ≠ dollarChar := by
  intro c hc
  exact natDigsCore_chars (n+1) n [] (by simp) c hc

theorem natDigsCore_ne_nil (fuel n : Nat) (acc : List Char) (h : fuel ≠ 0 ∨ acc ≠ []) :
    natDigsCore fuel n acc ≠ [] := by
  induction fuel generalizing n acc with
  | zero =>
    rcases h with h | h
    · exact absurd rfl h
    · simpa [natDigsCore] using h
  | succ fuel ih =>
    rw [natDigsCore]
    by_cases hn : n < 10
    · simp [hn]
    · rw [if_neg hn]
      exact ih (n / 10) _ (Or.inr (by simp))

theorem natRepr_data_ne_nil (n : Nat) : (natRepr n).data ≠ [] :=
  natDigsCore_ne_nil (n+1) n [] (Or.inl (Nat.succ_ne_zero n))

theorem natRepr_data_len (n : Nat) : 1 ≤ (natRepr n).data.length := by
  have h := natRepr_data_ne_nil n
  cases hl : (natRepr n).data with
  | nil => exact absurd hl h
  | cons a l => simp

theorem strEncAux_chars : ∀ l : List Char, ∀ c ∈ strEncAux l, c ≠ spaceChar ∧ c ≠ dollarChar := by
  intro l
  induction l with
  | nil => simp [strEncAux]
  | cons c cs ih =>
    intro d hd
    cases cs with
    | nil =>
      rw [strEncAux] at hd
      exact natRepr_chars _ d hd
    | cons c2 cs2 =>
      rw [strEncAux] at hd
      rcases List.mem_append.mp hd with h | h
      · exact natRepr_chars _ d h
      · rcases List.mem_cons.mp h with rfl | h'
        · exact ⟨by decide, by decide⟩
        · exact ih d h'

theorem strEncAux_len : ∀ l : List Char, l.length ≤ (strEncAux l).length := by
  intro l
  induction l with
  | nil => simp [strEncAux]
  | cons c cs ih =>
    cases cs with
    | nil => simpa [strEncAux] using natRepr_data_len c.toNat
    | cons c2 cs2 =>
      rw [strEncAux]
      have h1 := natRepr_data_len c.toNat
      simp only [List.length_append, List.length_cons]
      simp only [List.length_cons] at ih
      omega

theorem expEnc_chars (e : Option Nat) : ∀ c ∈ (expEnc e).data, c ≠ spaceChar ∧ c ≠ dollarChar := by
  cases e with
  | none =>
    intro c hc
    have : c = Char.ofNat 110 := by
      have hd : ("n" : String).data = [Char.ofNat 110] := by decide
      rw [expEnc, hd] at hc
      simpa using hc
    subst this
    exact ⟨by decide, by decide⟩
  | some k => exact natRepr_chars k

theorem jwtSign_chars (cl : Claims) (s : String) (e : Option Nat) :
    ∀ c ∈ (jwtSign cl s e).data, c ≠ spaceChar ∧ c ≠ dollarChar := by
  intro c hc
  have hc' : c ∈ (natRepr cl.id).data ++ dotChar ::
      (strEnc cl.email).data ++ dotChar :: (expEnc e).data ++ dotChar :: (strEnc s).data := hc
  have resolve : c ∈ (natRepr cl.id).data ∨ c ∈ (strEnc cl.email).data ∨
      c ∈ (expEnc e).data ∨ c ∈ (strEnc s).data ∨ c = dotChar := by
    simp only [List.mem_append, List.mem_cons] at hc'
    tauto
  rcases resolve with h | h | h | h | rfl
  · exact natRepr_chars _ c h
  · exact strEncAux_chars _ c h
  · exact expEnc_chars e c h
  · exact strEncAux_chars _ c h
  · exact ⟨by decide, by decide⟩

theorem jwtSign_ne_empty (cl : Claims) (s : String) (e : Option Nat) :
    jwtSign cl s e ≠ "" := by
  intro h
  have hd : (jwtSign cl s e).data = [] := by rw [h]
  have hd' : (natRepr cl.id).data ++ dotChar ::
      (strEnc cl.email).data ++ dotChar :: (expEnc e).data ++ dotChar :: (strEnc s).data = [] := hd
  rcases List.append_eq_nil.mp hd' with ⟨_, h2⟩
  exact List.cons_ne_nil _ _ h2

theorem listStartsWith_mem : ∀ (p l : List Char), listStartsWith p l = true → ∀ c ∈ p, c ∈ l := by
  intro p
  induction p with
  | nil => simp
  | cons x xs ih =>
    intro l h c hc
    cases l with
    | nil => simp [listStartsWith] at h
    | cons y ys =>
      rw [listStartsWith, Bool.and_eq_true, beq_iff_eq] at h
      obtain ⟨rfl, hrest⟩ := h
      rcases List.mem_cons.mp hc with rfl | hc'
      · exact List.mem_cons_self _ _
      · exact List.mem_cons_of_mem _ (ih ys hrest c hc')

theorem listStartsWith_append_self : ∀ (p l : List Char), listStartsWith p (p ++ l) = true := by
  intro p l
  induction p with
  | nil => rfl
  | cons x xs ih => simp [listStartsWith, ih]

theorem replaceFirstL_no_occ (pat : List Char) (x : Char) (hx : x ∈ pat) :
    ∀ l, (∀ c ∈ l, c ≠ x) → replaceFirstL pat l = l := by
  intro l
  induction l with
  | nil => intro _; rfl
  | cons c cs ih =>
    intro h
    have hsw : listStartsWith pat (c :: cs) = false := by
      cases hv : listStartsWith pat (c :: cs) with
      | false => rfl
      | true => exact absurd rfl (h x (listStartsWith_mem pat _ hv x hx))
    rw [replaceFirstL, if_neg (by simp [hsw])]
    rw [ih (fun d hd => h d (List.mem_cons_of_mem _ hd))]

theorem replaceFirstL_self_append (pat : List Char) (hne : pat ≠ []) (l : List Char) :
    replaceFirstL pat (pat ++ l) = l := by
  match pat, hne with
  | p :: ps, _ =>
    show replaceFirstL (p :: ps) (p :: (ps ++ l)) = l
    rw [replaceFirstL, if_pos (show listStartsWith (p :: ps) (p :: (ps ++ l)) = true from
      listStartsWith_append_self (p :: ps) l)]
    exact List.drop_left (p :: ps) l

theorem jsReplaceOnce_no_space (s : String) (h : ∀ c ∈ s.data, c ≠ spaceChar) :
    jsReplaceOnce "Bearer " s = s := by
  unfold jsReplaceOnce
  rw [replaceFirstL_no_occ ("Bearer ").data spaceChar (by decide) s.data h]

theorem jsReplaceOnce_strip (t : String) :
    jsReplaceOnce "Bearer " ("Bearer " ++ t) = t := by
  unfold jsReplaceOnce
  have hdata : (("Bearer " : String) ++ t).data = ("Bearer ").data ++ t.data := rfl
  rw [hdata, replaceFirstL_self_append ("Bearer ").data (by decide) t.data]

theorem find?_append_none {α : Type} (p : α → Bool) (l₁ l₂ : List α)
    (h : l₁.find? p = none) : (l₁ ++ l₂).find? p = l₂.find? p := by
  induction l₁ with
  | nil => rfl
  | cons a l ih =>
    cases hp : p a with
    | false =>
      simp only [List.find?, hp] at h
      simpa [List.find?, hp] using ih h
    | true => simp [List.find?, hp] at h

theorem register_fresh_eq (env : Env) (now salt : Nat) (name email password : String)
    (db : UsersTable) (hfresh : User.findByEmail db email = none) :
    register env now salt name email password db =
      ⟨successResponse (.auth
          (jwtSign ⟨db.nextId, email⟩ (env.jwtSecret.getD fallbackSecret)
            (env.jwtTtl.map (fun ttl => now + ttl * 1000)))
          (env.jwtTtl.map (fun ttl => now + ttl * 1000))),
        ⟨db.rows ++ [⟨db.nextId, name, email, bcryptHash password salt, now⟩], db.nextId + 1⟩,
        1, 1⟩ := by
  simp [register, hfresh, User.create]

theorem login_success_eq (env : Env) (now : Nat) (email password : String) (db : UsersTable)
    (u : UserRow) (hfind : User.findByEmail db email = some u)
    (hpw : bcryptCompare password u.password = true) :
    login env now email password db =
      successResponse (.auth
        (jwtSign ⟨u.id, u.email⟩ (env.jwtSecret.getD fallbackSecret)
          (env.jwtTtl.map (fun ttl => now + ttl * 1000)))
        (env.jwtTtl.map (fun ttl => now + ttl * 1000))) := by
  simp [login, hfind, hpw]

theorem deleteTodo_eq (u : Claims) (id : Nat) (db : AppDB) :
    TodoController.deleteTodo u id db =
      ((if (TodoModel.remove id db.todos).1 ≠ 0
          then successResponse .nullData "Todo deleted successfully"
          else errorResponse "Todo not found or deletion failed" 404),
        { db with todos := (TodoModel.remove id db.todos).2 }) := by
  unfold TodoController.deleteTodo
  rcases hrm : TodoModel.remove id db.todos with ⟨a, t'⟩
  simp only [hrm]
  by_cases h : a ≠ 0 <;> simp [h]

theorem updateTodo_eq (u : Claims) (name : String) (completed : Bool) (listId id now : Nat)
    (db : AppDB) :
    TodoController.updateTodo u name completed listId id now db =
      ((if (TodoModel.update name completed id listId now db.todos).1 ≠ 0
          then successResponse (.todoEcho id name listId completed) "Todo updated successfully"
          else errorResponse "Todo not found or update failed" 404),
        { db with todos := (TodoModel.update name completed id listId now db.todos).2 }) := by
  unfold TodoController.updateTodo
  rcases hrm : TodoModel.update name completed id listId now db.todos with ⟨a, t'⟩
  simp only [hrm]
  by_cases h : a ≠ 0 <;> simp [h]

/-! ## Claim theorems -/

/-- C1: Tenant isolation for lists. For every user id `u` and list row `L`
owned by a different user, `List.findAllByUserId u` never includes `L`,
`List.getListById L.id u` returns an empty result (ids being unique), and
every `List` mutation filters by the caller's user id: `remove` and
`update` leave `L` untouched in the table, and `create` only adds rows
owned by the caller. -/
theorem list_tenant_isolation (t : ListsTable) (u : Nat) (L : ListRow)
    (hmem : L ∈ t.rows) (hneq : L.userId ≠ u) :
    L ∉ ListModel.findAllByUserId u t
  ∧ ((∀ r ∈ t.rows, r.id = L.id → r = L) → ListModel.getListById L.id u t = [])
  ∧ (∀ id, L ∈ (ListModel.remove id u t).2.rows)
  ∧ (∀ name id now, L ∈ (ListModel.update name id u now t).2.rows)
  ∧ (∀ name now r, r ∈ (ListModel.create name u now t).2.rows → r ∈ t.rows ∨ r.userId = u) := by
  refine ⟨?_, ?_, ?_, ?_, ?_⟩
  · intro hL
    unfold ListModel.findAllByUserId at hL
    have h2 := (List.mem_filter.mp hL).2
    exact hneq (by simpa using h2)
  · intro huniq
    unfold ListModel.getListById
    rw [List.filter_eq_nil_iff]
    intro r hr
    simp only [Bool.and_eq_true, beq_iff_eq, not_and]
    intro hid hu
    exact hneq (by rw [huniq r hr hid] at hu; exact hu)
  · intro id
    show L ∈ t.rows.filter _
    refine List.mem_filter.mpr ⟨hmem, ?_⟩
    simp [hneq]
  · intro name id now
    show L ∈ t.rows.map _
    refine List.mem_map.mpr ⟨L, hmem, ?_⟩
    simp [hneq]
  · intro name now r hr
    have hr' : r ∈ t.rows ++ [⟨t.nextId, name, u, now, none⟩] := hr
    rcases List.mem_append.mp hr' with h | h
    · exact Or.inl h
    · right
      have : r = ⟨t.nextId, name, u, now, none⟩ := by simpa using h
      rw [this]

/-- C2: Todo operations filter only by the todo id (`getTodoById`,
`update`, `remove`) or by the caller-supplied list id (`create`,
`findAllByListId`) and never consult the owning list's user: every todo
controller produces the same response and the same effect on the `todos`
table for any two authenticated callers and any two `lists` tables, so
behaviour is independent of whether the todo's list belongs to the
caller. -/
theorem todo_ops_ignore_list_owner
    (u₁ u₂ : Claims) (us : UsersTable) (l₁ l₂ : ListsTable) (td : TodosTable)
    (id listId now : Nat) (name : String) (completed : Bool) :
    ((TodoController.getTodoById u₁ id ⟨us, l₁, td⟩).1
        = (TodoController.getTodoById u₂ id ⟨us, l₂, td⟩).1)
  ∧ ((TodoController.deleteTodo u₁ id ⟨us, l₁, td⟩).1
        = (TodoController.deleteTodo u₂ id ⟨us, l₂, td⟩).1
      ∧ (TodoController.deleteTodo u₁ id ⟨us, l₁, td⟩).2.todos
        = (TodoController.deleteTodo u₂ id ⟨us, l₂, td⟩).2.todos)
  ∧ ((TodoController.updateTodo u₁ name completed listId id now ⟨us, l₁, td⟩).1
        = (TodoController.updateTodo u₂ name completed listId id now ⟨us, l₂, td⟩).1
      ∧ (TodoController.updateTodo u₁ name completed listId id now ⟨us, l₁, td⟩).2.todos
        = (TodoController.updateTodo u₂ name completed listId id now ⟨us, l₂, td⟩).2.todos)
  ∧ ((TodoController.getTodos u₁ listId ⟨us, l₁, td⟩).1
        = (TodoController.getTodos u₂ listId ⟨us, l₂, td⟩).1)
  ∧ ((TodoController.createTodo u₁ name listId completed now ⟨us, l₁, td⟩).1
        = (TodoController.createTodo u₂ name listId completed now ⟨us, l₂, td⟩).1
      ∧ (TodoController.createTodo u₁ name listId completed now ⟨us, l₁, td⟩).2.todos
        = (TodoController.createTodo u₂ name listId completed now ⟨us, l₂, td⟩).2.todos) := by
  refine ⟨?_, ⟨?_, ?_⟩, ⟨?_, ?_⟩, ?_, ⟨?_, ?_⟩⟩
  · unfold TodoController.getTodoById
    cases h : TodoModel.getTodoById id td <;> simp [h]
  · rw [deleteTodo_eq, deleteTodo_eq]
  · rw [deleteTodo_eq, deleteTodo_eq]
  · rw [updateTodo_eq, updateTodo_eq]
  · rw [updateTodo_eq, updateTodo_eq]
  · rfl
  · rfl
  · rfl

/-- C3: A request to a protected resource with no `Authorization` header is
answered `401 "Unauthorized"` by the gate, the store is untouched and the
downstream handler (controller plus repository) never executes — for
every environment, time, handler and store. -/
theorem missing_auth_header_rejected (env : Env) (now : Nat)
    (handler : Claims → AppDB → Response × AppDB) (db : AppDB) :
    runProtected env none now handler db = (errorResponse "Unauthorized" 401, db, false) := rfl

/-- C4: The login failure response when no user has the given email is
identical — same status 401, same message, same empty error detail — to
the failure response when the user exists but the password does not
verify against the stored digest. -/
theorem login_failure_uniform_response (env : Env) (now : Nat) (email password : String)
    (db : UsersTable)
    (h : User.findByEmail db email = none
        ∨ ∃ u, User.findByEmail db email = some u ∧ bcryptCompare password u.password = false) :
    login env now email password db = errorResponse "Invalid email or password" 401 := by
  rcases h with h | ⟨u, hu, hpw⟩
  · simp [login, h]
  · simp [login, hu, hpw]

/-- C5: Registering an email that already has a user row fails with
status 409 before any hashing or insertion (zero hash computations, zero
inserts, store unchanged): after two register calls with the same email
the store holds exactly one row for that email, and the first call
succeeded with the generated id `db.nextId`. -/
theorem register_duplicate_email_conflict
    (env : Env) (db : UsersTable) (email : String)
    (now₁ salt₁ now₂ salt₂ : Nat) (name₁ password₁ name₂ password₂ : String)
    (hfresh : User.findByEmail db email = none) :
    (register env now₁ salt₁ name₁ email password₁ db).resp.status = 200
  ∧ (register env now₁ salt₁ name₁ email password₁ db).db.rows
      = db.rows ++ [⟨db.nextId, name₁, email, bcryptHash password₁ salt₁, now₁⟩]
  ∧ register env now₂ salt₂ name₂ email password₂ (register env now₁ salt₁ name₁ email password₁ db).db
      = ⟨errorResponse "Email is already registered" 409,
          (register env now₁ salt₁ name₁ email password₁ db).db, 0, 0⟩
  ∧ (register env now₁ salt₁ name₁ email password₁ db).db.rows.countP (fun r => r.email == email) = 1 := by
  have h1 := register_fresh_eq env now₁ salt₁ name₁ email password₁ db hfresh
  have hall : ∀ r ∈ db.rows, ¬((r.email == email) = true) := by
    intro r hr
    exact List.find?_eq_none.mp hfresh r hr
  have hfind2 : User.findByEmail (register env now₁ salt₁ name₁ email password₁ db).db email
      = some ⟨db.nextId, name₁, email, bcryptHash password₁ salt₁, now₁⟩ := by
    rw [h1]
    unfold User.findByEmail
    rw [find?_append_none _ _ _ hfresh]
    simp [List.find?]
  refine ⟨by rw [h1]; rfl, by rw [h1], ?_, ?_⟩
  · have h3 : ∀ d : UsersTable,
        User.findByEmail d email = some ⟨db.nextId, name₁, email, bcryptHash password₁ salt₁, now₁⟩ →
        register env now₂ salt₂ name₂ email password₂ d
          = ⟨errorResponse "Email is already registered" 409, d, 0, 0⟩ := by
      intro d hd
      simp [register, hd]
    exact h3 _ hfind2
  · have hrows : (register env now₁ salt₁ name₁ email password₁ db).db.rows
        = db.rows ++ [⟨db.nextId, name₁, email, bcryptHash password₁ salt₁, now₁⟩] := by rw [h1]
    rw [hrows, List.countP_append, List.countP_eq_zero.mpr hall]
    simp [List.countP, List.countP.go]

/-- C6 (counterexample): a garbled `Authorization` header is NOT treated
identically to an absent header — at the concrete header `"garbage"` the
gate's response differs from the absent-header response (the messages and
error details differ, though both are 401). -/
theorem garbled_header_differs_from_absent :
    authMiddleware ⟨some "secret", some 3600⟩ (some "garbage") 0
      ≠ authMiddleware ⟨some "secret", some 3600⟩ none 0 := by decide

/-- C6 (amended): a request whose `Authorization` header is present but
garbled is rejected with status 401 just as an absent header is, but the
gate DOES attempt to verify the header content (after stripping the first
`"Bearer "` occurrence): any garbled value that strips to a nonempty,
unverifiable token is answered `401 "Invalid token, TTL:<env TTL>"` with
the verification error attached, while an absent header is answered
`401 "Unauthorized"` — two different responses with the same status. -/
theorem garbled_header_verified_and_rejected (env : Env) (now : Nat) (g : String)
    (hne : jsReplaceOnce "Bearer " g ≠ "")
    (hfail : ∀ cl, jwtVerify (jsReplaceOnce "Bearer " g) env.jwtSecret now ≠ Except.ok cl) :
    (∃ e, jwtVerify (jsReplaceOnce "Bearer " g) env.jwtSecret now = Except.error e
      ∧ authMiddleware env (some g) now
          = .reject (errorResponse ("Invalid token, TTL:" ++ envNatStr env.jwtTtl) 401 (.jwtErr e)))
  ∧ authMiddleware env none now = .reject (errorResponse "Unauthorized" 401) := by
  constructor
  · cases hv : jwtVerify (jsReplaceOnce "Bearer " g) env.jwtSecret now with
    | ok cl => exact absurd hv (hfail cl)
    | error e => exact ⟨e, rfl, by simp [authMiddleware, hne, hv]⟩
  · rfl

/-- C7: a successful `register` answers `{token, expiresAt}` with
`expiresAt = now + ttl * 1000` milliseconds, i.e. the issuance time plus
the configured TTL in seconds, and a successful `login` answers the same
shape with the same `expiresAt` computation. -/
theorem auth_expiry_now_plus_ttl
    (env : Env) (ttl : Nat) (httl : env.jwtTtl = some ttl)
    (now salt : Nat) (name email password : String) (db : UsersTable)
    (hfresh : User.findByEmail db email = none)
    (now₂ : Nat) (email₂ password₂ : String) (db₂ : UsersTable) (u : UserRow)
    (hfind : User.findByEmail db₂ email₂ = some u)
    (hpw : bcryptCompare password₂ u.password = true) :
    (register env now salt name email password db).resp
      = successResponse (.auth
          (jwtSign ⟨db.nextId, email⟩ (env.jwtSecret.getD fallbackSecret) (some (now + ttl * 1000)))
          (some (now + ttl * 1000)))
  ∧ login env now₂ email₂ password₂ db₂
      = successResponse (.auth
          (jwtSign ⟨u.id, u.email⟩ (env.jwtSecret.getD fallbackSecret) (some (now₂ + ttl * 1000)))
          (some (now₂ + ttl * 1000))) := by
  constructor
  · rw [register_fresh_eq env now salt name email password db hfresh]
    simp [httl]
  · rw [login_success_eq env now₂ email₂ password₂ db₂ u hfind hpw]
    simp [httl]

/-- C8: the password digest stored by `User.create` is the bcrypt hash of
the supplied password and never the plaintext itself; no success response
of `register` or `login` contains the digest: their payloads hold only a
token and an expiry, and a digest (which always contains the `$` marker)
is never a substring of a signed token (whose alphabet excludes `$`). -/
theorem password_digest_isolation :
    (∀ name email password : String, ∀ salt now : Nat, ∀ db : UsersTable,
        (User.create name email password salt now db).2.rows
          = db.rows ++ [⟨db.nextId, name, email, bcryptHash password salt, now⟩]
      ∧ bcryptHash password salt ≠ password)
  ∧ (∀ password : String, ∀ salt : Nat, ∀ c : Claims, ∀ s : String, ∀ e : Option Nat,
        ¬ (bcryptHash password salt).data <:+: (jwtSign c s e).data)
  ∧ (∀ env ttl now salt name email password db, env.jwtTtl = some ttl →
        User.findByEmail db email = none →
        (register env now salt name email password db).resp
          = successResponse (.auth
              (jwtSign ⟨db.nextId, email⟩ (env.jwtSecret.getD fallbackSecret) (some (now + ttl * 1000)))
              (some (now + ttl * 1000))))
  ∧ (∀ env now email password db u, User.findByEmail db email = some u →
        bcryptCompare password u.password = true →
        login env now email password db
          = successResponse (.auth
              (jwtSign ⟨u.id, u.email⟩ (env.jwtSecret.getD fallbackSecret)
                (env.jwtTtl.map (fun ttl => now + ttl * 1000)))
              (env.jwtTtl.map (fun ttl => now + ttl * 1000)))) := by
  refine ⟨?_, ?_, ?_, ?_⟩
  · intro name email password salt now db
    refine ⟨rfl, ?_⟩
    intro heq
    have hle := strEncAux_len password.data
    have h1 := natRepr_data_len salt
    have h7 : (("$2b$10$" : String).data).length = 7 := rfl
    have hlen : (bcryptHash password salt).data.length = password.data.length := by rw [heq]
    have hexp : (bcryptHash password salt).data.length
        = (("$2b$10$" : String).data).length + (natRepr salt).data.length
          + (1 + (strEncAux password.data).length) := by
      show ((("$2b$10$" : String).data ++ (natRepr salt).data)
          ++ dollarChar :: (strEnc password).data).length = _
      simp [List.length_append, List.length_cons, strEnc]
      omega
    rw [h7] at hexp
    omega
  · intro password salt c s e hinf
    have hdollar : dollarChar ∈ (bcryptHash password salt).data := by
      show dollarChar ∈ (("$2b$10$" : String).data ++ (natRepr salt).data)
          ++ dollarChar :: (strEnc password).data
      exact List.mem_append.mpr (Or.inr (List.mem_cons_self _ _))
    have hsub := List.Sublist.subset (List.IsInfix.sublist hinf)
    exact (jwtSign_chars c s e dollarChar (hsub hdollar)).2 rfl
  · intro env ttl now salt name email password db httl hfresh
    rw [register_fresh_eq env now salt name email password db hfresh]
    simp [httl]
  · intro env now email password db u hfind hpw
    exact login_success_eq env now email password db u hfind hpw

/-- C9: the gate does not require the `Bearer ` marker: for every signed
token, the gate behaves identically on the raw header value and on the
`Bearer `-prefixed header (it only strips the first occurrence of the
literal `"Bearer "` when present, and a token's alphabet contains no
space so nothing is stripped from a raw token); in particular when
verification succeeds the raw header is accepted. -/
theorem bearer_marker_not_required (env : Env) (now : Nat) (c : Claims) (s : String)
    (e : Option Nat) :
    authMiddleware env (some (jwtSign c s e)) now
      = authMiddleware env (some ("Bearer " ++ jwtSign c s e)) now
  ∧ (∀ cl, jwtVerify (jwtSign c s e) env.jwtSecret now = Except.ok cl →
      authMiddleware env (some (jwtSign c s e)) now = GateResult.allow cl) := by
  have hstrip1 : jsReplaceOnce "Bearer " (jwtSign c s e) = jwtSign c s e :=
    jsReplaceOnce_no_space _ (fun ch hch => (jwtSign_chars c s e ch hch).1)
  have hstrip2 : jsReplaceOnce "Bearer " ("Bearer " ++ jwtSign c s e) = jwtSign c s e :=
    jsReplaceOnce_strip _
  have hne := jwtSign_ne_empty c s e
  constructor
  · simp [authMiddleware, hstrip1, hstrip2]
  · intro cl hcl
    simp [authMiddleware, hstrip1, hne, hcl]

/-- C10: when `JWT_SECRET` is unset, `register` and `login` sign tokens
with the hardcoded fallback secret, but the gate verifies against the
unset environment value with no fallback, so every issued token — raw or
`Bearer `-prefixed — is rejected with status 401. -/
theorem unset_secret_rejects_issued_tokens (env : Env) (hsec : env.jwtSecret = none) :
    (∀ now salt : Nat, ∀ name email password : String, ∀ db : UsersTable, ∀ ttl : Nat,
        env.jwtTtl = some ttl →
        User.findByEmail db email = none →
        (register env now salt name email password db).resp
          = successResponse (.auth
              (jwtSign ⟨db.nextId, email⟩ fallbackSecret (some (now + ttl * 1000)))
              (some (now + ttl * 1000))))
  ∧ (∀ now : Nat, ∀ email password : String, ∀ db : UsersTable, ∀ u : UserRow,
        User.findByEmail db email = some u →
        bcryptCompare password u.password = true →
        login env now email password db
          = successResponse (.auth
              (jwtSign ⟨u.id, u.email⟩ fallbackSecret (env.jwtTtl.map (fun ttl => now + ttl * 1000)))
              (env.jwtTtl.map (fun ttl => now + ttl * 1000))))
  ∧ (∀ c : Claims, ∀ s : String, ∀ e : Option Nat, ∀ now : Nat,
        authMiddleware env (some (jwtSign c s e)) now
          = .reject (errorResponse ("Invalid token, TTL:" ++ envNatStr env.jwtTtl) 401
              (.jwtErr .noSecret))
      ∧ authMiddleware env (some ("Bearer " ++ jwtSign c s e)) now
          = .reject (errorResponse ("Invalid token, TTL:" ++ envNatStr env.jwtTtl) 401
              (.jwtErr .noSecret))) := by
  refine ⟨?_, ?_, ?_⟩
  · intro now salt name email password db ttl httl hfresh
    rw [register_fresh_eq env now salt name email password db hfresh]
    simp [httl, hsec]
  · intro now email password db u hfind hpw
    rw [login_success_eq env now email password db u hfind hpw]
    simp [hsec]
  · intro c s e now
    have hstrip1 : jsReplaceOnce "Bearer " (jwtSign c s e) = jwtSign c s e :=
      jsReplaceOnce_no_space _ (fun ch hch => (jwtSign_chars c s e ch hch).1)
    have hstrip2 : jsReplaceOnce "Bearer " ("Bearer " ++ jwtSign c s e) = jwtSign c s e :=
      jsReplaceOnce_strip _
    have hne := jwtSign_ne_empty c s e
    have hv : jwtVerify (jwtSign c s e) env.jwtSecret now = .error .noSecret := by
      rw [hsec]
      rfl
    constructor
    · simp [authMiddleware, hstrip1, hne, hv]
    · simp [authMiddleware, hstrip2, hne, hv]

/-! ## Witnesses -/

/-- Witness for C1 at a concrete table: one list owned by user 1, queried
and mutated as user 2. -/
theorem list_tenant_isolation_witness :
    ((⟨1, "A", 1, 0, none⟩ : ListRow) ∈ ([⟨1, "A", 1, 0, none⟩] : List ListRow))
  ∧ ((1 : Nat) ≠ 2)
  ∧ ListModel.getListById 1 2 ⟨[⟨1, "A", 1, 0, none⟩], 2⟩ = []
  ∧ ((⟨1, "A", 1, 0, none⟩ : ListRow) ∉ ListModel.findAllByUserId 2 ⟨[⟨1, "A", 1, 0, none⟩], 2⟩) := by
  have H := list_tenant_isolation ⟨[⟨1, "A", 1, 0, none⟩], 2⟩ 2 ⟨1, "A", 1, 0, none⟩
    (by decide) (by decide)
  exact ⟨by decide, by decide, H.2.1 (by decide), H.1⟩

/-- Witness for C4 at concrete stores: both the unknown-email case and the
wrong-password case produce the identical 401 response. -/
theorem login_failure_uniform_response_witness :
    (User.findByEmail ⟨[], 1⟩ "a@b" = none
      ∨ ∃ u, User.findByEmail ⟨[], 1⟩ "a@b" = some u ∧ bcryptCompare "pw" u.password = false)
  ∧ login ⟨some "s", some 3⟩ 0 "a@b" "pw" ⟨[], 1⟩ = errorResponse "Invalid email or password" 401
  ∧ login ⟨some "s", some 3⟩ 0 "a@b" "wrong" ⟨[⟨1, "N", "a@b", bcryptHash "pw" 0, 0⟩], 2⟩
      = errorResponse "Invalid email or password" 401 := by
  refine ⟨Or.inl rfl, login_failure_uniform_response ⟨some "s", some 3⟩ 0 "a@b" "pw" ⟨[], 1⟩ (Or.inl rfl), ?_⟩
  exact login_failure_uniform_response ⟨some "s", some 3⟩ 0 "a@b" "wrong"
    ⟨[⟨1, "N", "a@b", bcryptHash "pw" 0, 0⟩], 2⟩
    (Or.inr ⟨⟨1, "N", "a@b", bcryptHash "pw" 0, 0⟩, rfl, by decide⟩)

/-- Witness for C5: registering the same email twice on an initially empty
store, concretely. -/
theorem register_duplicate_email_conflict_witness :
    User.findByEmail ⟨[], 1⟩ "a@b" = none
  ∧ register ⟨some "s", some 3⟩ 1 9 "B" "a@b" "pw2"
        (register ⟨some "s", some 3⟩ 0 7 "A" "a@b" "pw" ⟨[], 1⟩).db
      = ⟨errorResponse "Email is already registered" 409,
          (register ⟨some "s", some 3⟩ 0 7 "A" "a@b" "pw" ⟨[], 1⟩).db, 0, 0⟩
  ∧ (register ⟨some "s", some 3⟩ 0 7 "A" "a@b" "pw" ⟨[], 1⟩).db.rows.countP
        (fun r => r.email == "a@b") = 1 := by
  have H := register_duplicate_email_conflict ⟨some "s", some 3⟩ ⟨[], 1⟩ "a@b"
    0 7 1 9 "A" "pw" "B" "pw2" rfl
  exact ⟨rfl, H.2.2.1, H.2.2.2⟩

/-- Witness for the amended C6 at the concrete garbled header `"garbage"`. -/
theorem garbled_header_verified_and_rejected_witness :
    jsReplaceOnce "Bearer " "garbage" ≠ ""
  ∧ authMiddleware ⟨some "secret", some 3600⟩ (some "garbage") 0
      = .reject (errorResponse ("Invalid token, TTL:" ++ envNatStr (some 3600)) 401
          (.jwtErr .malformed))
  ∧ authMiddleware ⟨some "secret", some 3600⟩ none 0 = .reject (errorResponse "Unauthorized" 401) := by
  have H := garbled_header_verified_and_rejected ⟨some "secret", some 3600⟩ 0 "garbage"
    (by decide)
    (fun cl h => by
      rw [show jwtVerify (jsReplaceOnce "Bearer " "garbage") (some "secret") 0
          = Except.error JwtError.malformed from rfl] at h
      exact Except.noConfusion h)
  obtain ⟨⟨e, he, hmw⟩, habs⟩ := H
  have he2 : (Except.error JwtError.malformed : Except JwtError Claims) = Except.error e := by
    rw [← he]
    rfl
  injection he2 with h
  subst h
  exact ⟨by decide, hmw, habs⟩

/-- Witness for C7 at concrete stores, TTL 3 seconds, issuance times 10
and 20 ms. -/
theorem auth_expiry_now_plus_ttl_witness :
    (⟨some "s", some 3⟩ : Env).jwtTtl = some 3
  ∧ User.findByEmail ⟨[], 1⟩ "a@b" = none
  ∧ User.findByEmail ⟨[⟨1, "N", "a@b", bcryptHash "pw" 0, 5⟩], 2⟩ "a@b"
      = some ⟨1, "N", "a@b", bcryptHash "pw" 0, 5⟩
  ∧ bcryptCompare "pw" (bcryptHash "pw" 0) = true
  ∧ (register ⟨some "s", some 3⟩ 10 7 "A" "a@b" "pw" ⟨[], 1⟩).resp
      = successResponse (.auth (jwtSign ⟨1, "a@b"⟩ "s" (some 3010)) (some 3010))
  ∧ login ⟨some "s", some 3⟩ 20 "a@b" "pw" ⟨[⟨1, "N", "a@b", bcryptHash "pw" 0, 5⟩], 2⟩
      = successResponse (.auth (jwtSign ⟨1, "a@b"⟩ "s" (some 3020)) (some 3020)) := by
  have H := auth_expiry_now_plus_ttl ⟨some "s", some 3⟩ 3 rfl 10 7 "A" "a@b" "pw" ⟨[], 1⟩ rfl
    20 "a@b" "pw" ⟨[⟨1, "N", "a@b", bcryptHash "pw" 0, 5⟩], 2⟩ ⟨1, "N", "a@b", bcryptHash "pw" 0, 5⟩
    rfl (by decide)
  exact ⟨rfl, rfl, rfl, by decide, H.1, H.2⟩

/-- Witness for C8: concrete register success whose payload is only a token
and an expiry, and a concrete digest that differs from its plaintext. -/
theorem password_digest_isolation_witness :
    (⟨some "s", some 3⟩ : Env).jwtTtl = some 3
  ∧ User.findByEmail ⟨[], 1⟩ "a@b" = none
  ∧ (register ⟨some "s", some 3⟩ 10 7 "A" "a@b" "pw" ⟨[], 1⟩).resp
      = successResponse (.auth (jwtSign ⟨1, "a@b"⟩ "s" (some 3010)) (some 3010))
  ∧ bcryptHash "pw" 7 ≠ "pw" := by
  have H := password_digest_isolation
  exact ⟨rfl, rfl, H.2.2.1 ⟨some "s", some 3⟩ 3 10 7 "A" "a@b" "pw" ⟨[], 1⟩ rfl rfl,
    (H.1 "A" "a@b" "pw" 7 10 ⟨[], 1⟩).2⟩

/-- Witness for C9: a concrete valid token is accepted raw, without the
`Bearer ` marker. -/
theorem bearer_marker_not_required_witness :
    jwtVerify (jwtSign ⟨1, "ab"⟩ "secret" (some 99)) (some "secret") 0 = Except.ok ⟨1, "ab"⟩
  ∧ authMiddleware ⟨some "secret", some 3600⟩ (some (jwtSign ⟨1, "ab"⟩ "secret" (some 99))) 0
      = GateResult.allow ⟨1, "ab"⟩
  ∧ authMiddleware ⟨some "secret", some 3600⟩ (some (jwtSign ⟨1, "ab"⟩ "secret" (some 99))) 0
      = authMiddleware ⟨some "secret", some 3600⟩
          (some ("Bearer " ++ jwtSign ⟨1, "ab"⟩ "secret" (some 99))) 0 := by
  have H := bearer_marker_not_required ⟨some "secret", some 3600⟩ 0 ⟨1, "ab"⟩ "secret" (some 99)
  exact ⟨rfl, H.2 ⟨1, "ab"⟩ rfl, H.1⟩

/-- Witness for C10 with `JWT_SECRET` unset: the concrete token issued by
register is signed with the fallback secret and the gate rejects it. -/
theorem unset_secret_rejects_issued_tokens_witness :
    (⟨none, some 3⟩ : Env).jwtSecret = none
  ∧ User.findByEmail ⟨[], 1⟩ "a@b" = none
  ∧ (register ⟨none, some 3⟩ 10 7 "A" "a@b" "pw" ⟨[], 1⟩).resp
      = successResponse (.auth (jwtSign ⟨1, "a@b"⟩ fallbackSecret (some 3010)) (some 3010))
  ∧ authMiddleware ⟨none, some 3⟩ (some ("Bearer " ++ jwtSign ⟨1, "a@b"⟩ fallbackSecret (some 3010))) 5
      = .reject (errorResponse ("Invalid token, TTL:" ++ envNatStr (some 3)) 401
          (.jwtErr .noSecret)) := by
  have H := unset_secret_rejects_issued_tokens ⟨none, some 3⟩ rfl
  exact ⟨rfl, rfl, H.1 10 7 "A" "a@b" "pw" ⟨[], 1⟩ 3 rfl rfl,
    (H.2.2 ⟨1, "a@b"⟩ fallbackSecret (some 3010) 5).2⟩

end TodoApi
